import Mathlib

/-!
Verification of the `FileMerger` utility (a Python script that merges the
text files of a directory tree into a single annotated output file).

The script is embedded shallowly: strings are lists of characters
(`Str := List Char`), the directory tree walked by `os.walk` is an explicit
mutual inductive (`Dir` / `Forest`), file contents are tagged with whether
opening or reading them succeeds, and the functions
`get_directory_structure`, `is_text_file` and `merge_files` are translated
line by line from the source.  The `os.path` helpers used by the script
(`basename`, `splitext`, `join`, `relpath`) and `str.replace` / `str.count`
are modelled after their documented CPython behaviour for POSIX paths
(separator `'/'`, no `altsep`).
-/

set_option maxRecDepth 4096

abbrev Str := List Char

def lit (s : String) : Str := s.data

/-- POSIX path separator, `os.sep`. -/
def sep : Char := '/'

/-- Model of Python `s.count(c)` for a single character: the number of
occurrences of `c` in `s`. -/
def countChar (c : Char) (s : Str) : Nat :=
  (s.filter (fun d => d = c)).length

/-- Model of Python `s.replace(old, '')` (every non-overlapping occurrence
of `old` deleted, scanning left to right; `old = ""` leaves `s` unchanged),
with explicit fuel so that the definition is structurally recursive.  The
fuel bounds the number of characters still to be scanned, so `s.length`
suffices. -/
def removeAllFuel (old : Str) : Nat → Str → Str
  | 0, s => s
  | _ + 1, [] => []
  | fuel + 1, c :: rest =>
    if old ≠ [] ∧ old.isPrefixOf (c :: rest) then
      removeAllFuel old fuel (List.drop (old.length - 1) rest)
    else
      c :: removeAllFuel old fuel rest

/-- Model of Python `s.replace(old, '')`. -/
def removeAll (old s : Str) : Str :=
  removeAllFuel old s.length s

/-- Model of `os.path.basename` on POSIX: everything after the last
separator. -/
def basename (s : Str) : Str :=
  (s.reverse.takeWhile (fun c => c ≠ sep)).reverse

/-- The extension component of `os.path.splitext` on POSIX: the suffix of
the basename beginning at its last dot, except that leading dots of the
basename never begin an extension; `[]` when there is no extension. -/
def splitextExt (p : Str) : Str :=
  let b := basename p
  if (b.dropWhile (fun c => c = '.')).contains '.' then
    ((b.reverse.takeWhile (fun c => c ≠ '.')) ++ ['.']).reverse
  else
    []

/-- Model of Python `str.lower` (ASCII case folding, which covers every
character the script compares against). -/
def lowerStr (s : Str) : Str :=
  s.map Char.toLower

/-- Model of `os.path.join(root, f)` for a relative second component, as
produced by `os.walk`: concatenation with one separator, no separator
duplicated if `root` already ends with one, and `join("", f) = f`. -/
def joinPath (root f : Str) : Str :=
  match root.getLast? with
  | none => f
  | some c => if c = sep then root ++ f else root ++ sep :: f

/-- Model of `os.path.relpath(p, base)` in the only situation the script
uses it: `p` is `join` of `base` (or a descendant of `base`) with a
filename, so the relative path is `p` with the leading `base ++ "/"`
stripped. -/
def relpath (p base : Str) : Str :=
  if (base ++ [sep]).isPrefixOf p then List.drop (base.length + 1) p else p

/-- `FileMerger.supported_extensions`: the allow-list of extensions,
transcribed from the source set literal. -/
def supported_extensions : List Str :=
  [lit ".html", lit ".htm", lit ".xhtml", lit ".css", lit ".less",
   lit ".sass", lit ".scss",
   lit ".js", lit ".jsx", lit ".ts", lit ".tsx", lit ".cjs", lit ".mjs",
   lit ".vue", lit ".svelte",
   lit ".webmanifest", lit ".htaccess",
   lit ".py", lit ".pyi", lit ".pyx", lit ".pxd", lit ".pxi", lit ".pyc",
   lit ".pyd", lit ".pyw",
   lit ".ipynb", lit ".rpy", lit ".pyz", lit ".whl",
   lit ".java", lit ".class", lit ".jar", lit ".war", lit ".jsp",
   lit ".jspx", lit ".gradle",
   lit ".groovy", lit ".gvy", lit ".gy", lit ".gsh", lit ".kt", lit ".kts",
   lit ".ktm", lit ".scala",
   lit ".sc", lit ".clj", lit ".cljs", lit ".cljc", lit ".edn",
   lit ".c", lit ".cpp", lit ".cc", lit ".cxx", lit ".c++", lit ".h",
   lit ".hpp", lit ".hh", lit ".hxx",
   lit ".h++", lit ".inl", lit ".inc", lit ".ixx", lit ".def", lit ".tcc",
   lit ".cs", lit ".csx", lit ".vb", lit ".fs", lit ".fsx", lit ".fsi",
   lit ".fsscript",
   lit ".xaml", lit ".razor", lit ".cshtml", lit ".vbhtml", lit ".aspx",
   lit ".ascx",
   lit ".php", lit ".php3", lit ".php4", lit ".php5", lit ".phtml",
   lit ".phps",
   lit ".phar", lit ".inc",
   lit ".rb", lit ".rbw", lit ".rake", lit ".gemspec", lit ".ru",
   lit ".erb", lit ".rhtml",
   lit ".rjs", lit ".rxml", lit ".builder",
   lit ".go", lit ".mod", lit ".sum", lit ".work",
   lit ".rs", lit ".rlib", lit ".rst",
   lit ".swift", lit ".m", lit ".mm", lit ".h", lit ".metal",
   lit ".sh", lit ".bash", lit ".zsh", lit ".fish", lit ".ksh", lit ".csh",
   lit ".tcsh",
   lit ".bat", lit ".cmd", lit ".ps1", lit ".psm1", lit ".psd1", lit ".vbs",
   lit ".vbe",
   lit ".wsf", lit ".wsc",
   lit ".sql", lit ".mysql", lit ".pgsql", lit ".plsql", lit ".ora",
   lit ".spl",
   lit ".hql", lit ".qml", lit ".prisma",
   lit ".json", lit ".jsonc", lit ".json5", lit ".yaml", lit ".yml",
   lit ".toml", lit ".ini",
   lit ".conf", lit ".config", lit ".cfg", lit ".properties", lit ".prop",
   lit ".env",
   lit ".editorconfig", lit ".babelrc", lit ".eslintrc", lit ".prettierrc",
   lit ".dockerignore", lit ".gitignore", lit ".npmrc", lit ".yarnrc",
   lit ".gitattributes",
   lit ".md", lit ".markdown", lit ".mdown", lit ".mkd", lit ".mkdn",
   lit ".mdwn", lit ".mdtxt",
   lit ".mdtext", lit ".txt", lit ".text", lit ".rst", lit ".asciidoc",
   lit ".adoc", lit ".asc",
   lit ".creole", lit ".wiki", lit ".mediawiki", lit ".tex", lit ".ltx",
   lit ".latex",
   lit ".xml", lit ".xsl", lit ".xslt", lit ".svg", lit ".wsdl", lit ".dtd",
   lit ".xsd",
   lit ".rss", lit ".atom", lit ".csv", lit ".tsv", lit ".ods", lit ".ots",
   lit ".dart", lit ".kt", lit ".gradle", lit ".plist", lit ".storyboard",
   lit ".xib",
   lit ".pbxproj", lit ".xcworkspacedata", lit ".xcscheme",
   lit ".lua", lit ".tcl", lit ".tk", lit ".r", lit ".rmd", lit ".julia",
   lit ".jl",
   lit ".f", lit ".f90", lit ".f95", lit ".f03", lit ".f08", lit ".for",
   lit ".f77",
   lit ".hs", lit ".lhs", lit ".elm", lit ".erl", lit ".hrl", lit ".ex",
   lit ".exs",
   lit ".eex", lit ".leex", lit ".heex", lit ".ml", lit ".mli", lit ".pp",
   lit ".pas", lit ".inc", lit ".dpr", lit ".dpk",
   lit ".cmake", lit ".make", lit ".mk", lit ".mak", lit ".dockerfile",
   lit ".lock",
   lit ".gemfile", lit ".rakefile", lit ".nuspec", lit ".nupkg",
   lit ".csproj",
   lit ".vbproj", lit ".fsproj", lit ".vcxproj", lit ".sln",
   lit ".tmpl", lit ".tpl", lit ".template", lit ".mustache",
   lit ".handlebars", lit ".hbs",
   lit ".ejs", lit ".eta", lit ".jade", lit ".pug", lit ".haml",
   lit ".slim", lit ".liquid",
   lit ".j2", lit ".jinja", lit ".jinja2"]

/-- `FileMerger.exclude_files`: filenames excluded from the merge. -/
def exclude_files : List Str := [lit "file_merger.py"]

/-- `FileMerger.output_pattern`: the prefix pattern meant to identify
generated output files. -/
def output_pattern : Str := lit "_merged_"

/-- `FileMerger.is_text_file`, line by line: take the basename of the
path; reject it if it is in `exclude_files` or starts with
`output_pattern`; otherwise accept iff the extension of the lowercased
path is in `supported_extensions`. -/
def is_text_file (file_path : Str) : Bool :=
  let filename := basename file_path
  if exclude_files.contains filename || output_pattern.isPrefixOf filename then
    false
  else
    supported_extensions.contains (splitextExt (lowerStr file_path))

/-- The outcome of `open(file_path)` followed by `infile.read()` for one
file on disk: the content when both succeed, or the exception text when
`open` itself raises, or when `open` succeeds and `read` raises. -/
inductive ReadOutcome where
  | ok (content : Str) : ReadOutcome
  | openErr (msg : Str) : ReadOutcome
  | readErr (msg : Str) : ReadOutcome
  deriving DecidableEq

/-- A file on disk: its name and what happens when the script opens and
reads it. -/
structure FileE where
  name : Str
  outcome : ReadOutcome
  deriving DecidableEq

mutual
/-- A directory on disk: its name, its regular files and its
subdirectories. -/
inductive Dir where
  | node (name : Str) (files : List FileE) (subs : Forest) : Dir
/-- A list of sibling directories, in the order `os.walk` visits them. -/
inductive Forest where
  | nil : Forest
  | cons (d : Dir) (ds : Forest) : Forest
end

def Dir.dname : Dir → Str
  | .node n _ _ => n

def Dir.dfiles : Dir → List FileE
  | .node _ fs _ => fs

def Dir.dsubs : Dir → Forest
  | .node _ _ s => s

mutual
/-- Model of `os.walk(startpath)` (top-down): yields, for each directory,
its path and the files directly in it; the directory itself first, then
its subtrees in order.  The `dirs` component of the Python triple is never
used by the script and is omitted. -/
def walkD (path : Str) : Dir → List (Str × List FileE)
  | .node _ files subs => (path, files) :: walkF path subs
def walkF (path : Str) : Forest → List (Str × List FileE)
  | .nil => []
  | .cons d ds => walkD (joinPath path d.dname) d ++ walkF path ds
end

/-- The loop body of `FileMerger.get_directory_structure` for one
`(root, files)` entry yielded by the walk: the directory line
`indent + basename(root) + "/"` with `indent = '  ' * level` where
`level = root.replace(startpath, '').count(os.sep)`, followed by one line
per file at `'  ' * (level + 1)`. -/
def entryLines (startpath : Str) (rf : Str × List FileE) : List Str :=
  let level := countChar sep (removeAll startpath rf.1)
  let indent := List.replicate (2 * level) ' '
  let subindent := List.replicate (2 * (level + 1)) ' '
  (indent ++ basename rf.1 ++ [sep]) :: rf.2.map (fun f => subindent ++ f.name)

/-- `FileMerger.get_directory_structure` as a list of lines: the loop body
applied to every entry of the walk. -/
def structureLines (startpath : Str) (d : Dir) : List Str :=
  (walkD startpath d).flatMap (entryLines startpath)

/-- `FileMerger.get_directory_structure`: the lines joined with `'\n'`. -/
def get_directory_structure (startpath : Str) (d : Dir) : Str :=
  List.intercalate (lit "\n") (structureLines startpath d)

/-- The text `merge_files` writes for one file that passed `is_text_file`:
on a successful open and read, the two 80-`=` delimiter lines around the
`File:` label, a blank line, the content and a blank line; when `open`
raises, only the error line (the delimiters are written inside the `with`
block, which is never entered); when `read` raises, the delimiters and
label were already written before the error line. -/
def fileSection (source_dir file_path : Str) (oc : ReadOutcome) : Str :=
  match oc with
  | .ok content =>
      List.replicate 80 '=' ++ lit "\n" ++
      lit "File: " ++ relpath file_path source_dir ++ lit "\n" ++
      List.replicate 80 '=' ++ lit "\n\n" ++
      content ++ lit "\n\n"
  | .openErr m =>
      lit "Error reading file " ++ file_path ++ lit ": " ++ m ++ lit "\n\n"
  | .readErr m =>
      List.replicate 80 '=' ++ lit "\n" ++
      lit "File: " ++ relpath file_path source_dir ++ lit "\n" ++
      List.replicate 80 '=' ++ lit "\n\n" ++
      lit "Error reading file " ++ file_path ++ lit ": " ++ m ++ lit "\n\n"

/-- The per-file loop of `merge_files`: walk the tree again and, for every
file whose joined path passes `is_text_file`, append its section. -/
def contentSections (source_dir : Str) (d : Dir) : Str :=
  ((walkD source_dir d).flatMap (fun rf =>
    rf.2.filterMap (fun f =>
      let file_path := joinPath rf.1 f.name
      if is_text_file file_path then
        some (fileSection source_dir file_path f.outcome)
      else
        none))).flatten

/-- A wall-clock instant, the fields `datetime.datetime.now()` exposes to
`strftime("%Y-%m-%d %H:%M:%S")`. -/
structure DateTime where
  year : Nat
  month : Nat
  day : Nat
  hour : Nat
  minute : Nat
  second : Nat

/-- The decimal digits of `n` (most significant first, `[]` for `0`),
with fuel for structural recursion; `n` itself is always enough fuel. -/
def decDigitsAux : Nat → Nat → Str
  | 0, _ => []
  | _ + 1, 0 => []
  | fuel + 1, n + 1 => decDigitsAux fuel ((n + 1) / 10) ++ [Nat.digitChar ((n + 1) % 10)]

/-- The decimal representation of a natural number. -/
def decStr (n : Nat) : Str :=
  if n = 0 then lit "0" else decDigitsAux n n

/-- Model of zero padding to width `w`, as `strftime` pads `%Y` to 4 and
`%m`, `%d`, `%H`, `%M`, `%S` to 2 digits. -/
def zfill (w : Nat) (s : Str) : Str :=
  List.replicate (w - s.length) '0' ++ s

/-- Model of `datetime.strftime("%Y-%m-%d %H:%M:%S")`. -/
def strftimeYmdHms (t : DateTime) : Str :=
  zfill 4 (decStr t.year) ++ lit "-" ++ zfill 2 (decStr t.month) ++ lit "-" ++
  zfill 2 (decStr t.day) ++ lit " " ++ zfill 2 (decStr t.hour) ++ lit ":" ++
  zfill 2 (decStr t.minute) ++ lit ":" ++ zfill 2 (decStr t.second)

/-- The ambient state `merge_files` runs in: the directory being merged,
the wall clock, and the result of opening the output file for writing —
`none` when the `open` succeeds, `some e` when it (or anything else inside
the `try` block) raises an exception with text `e`. -/
structure MergeEnv where
  source_dir : Str
  tree : Dir
  now : DateTime
  openFailure : Option Str

/-- `FileMerger.merge_files`.  Returns the success flag and message the
Python function returns, together with everything written to the output
file.  When the output file cannot be opened (`openFailure = some e`) the
`except` branch returns `(False, "Error during merge: " + e)` and nothing
is written; otherwise the writes happen in source order: timestamp line,
blank line, `Directory Structure:` header and underline, the tree listing,
a blank line, `File Contents:` header and underline, a blank line, then
the per-file sections. -/
def merge_files (env : MergeEnv) : Bool × Str × Str :=
  match env.openFailure with
  | some e => (false, lit "Error during merge: " ++ e, [])
  | none =>
      (true, lit "Files merged successfully!",
        lit "Generated on: " ++ strftimeYmdHms env.now ++ lit "\n\n" ++
        lit "Directory Structure:\n" ++
        lit "===================\n" ++
        get_directory_structure env.source_dir env.tree ++ lit "\n\n" ++
        lit "File Contents:\n" ++
        lit "=============\n\n" ++
        contentSections env.source_dir env.tree)

/-- Does `pat` occur as a contiguous substring of `s`?  These are exactly
the occurrences `str.replace` rewrites. -/
def occursIn (pat : Str) : Str → Bool
  | [] => pat.isEmpty
  | c :: rest => pat.isPrefixOf (c :: rest) || occursIn pat rest

mutual
/-- Every directory name in the tree is a legal path component: nonempty
and free of the separator. -/
def goodD : Dir → Bool
  | .node n _ subs => (!n.isEmpty) && n.all (fun c => c ≠ sep) && goodF subs
def goodF : Forest → Bool
  | .nil => true
  | .cons d ds => goodD d && goodF ds
end

mutual
/-- The start path does not reoccur as a substring of the walk-relative
path `r` of this directory nor of any of its descendants (`r` grows by
`"/" ++ name` at each descent). -/
def freshD (sp r : Str) : Dir → Bool
  | .node _ _ subs => !(occursIn sp r) && freshF sp r subs
def freshF (sp r : Str) : Forest → Bool
  | .nil => true
  | .cons d ds => freshD sp (r ++ sep :: d.dname) d && freshF sp r ds
end

mutual
/-- Modelled from the spec: the directory listing it describes, with one
line `indent + name + "/"` per directory at two spaces of indent per
nesting level (the root at level 0 under its display name), each
immediately followed by one line per file one level deeper, unfiltered. -/
def specLinesD (level : Nat) (dispName : Str) : Dir → List Str
  | .node _ files subs =>
    (List.replicate (2 * level) ' ' ++ dispName ++ [sep]) ::
      (files.map (fun f => List.replicate (2 * (level + 1)) ' ' ++ f.name) ++
        specLinesF (level + 1) subs)
def specLinesF (level : Nat) : Forest → List Str
  | .nil => []
  | .cons d ds => specLinesD level d.dname d ++ specLinesF level ds
end

/-- `/proj` containing exactly `a.py`, `b.txt` and `c.png`. -/
def abcTree : Dir :=
  .node (lit "proj")
    [⟨lit "a.py", .ok (lit "ALPHA")⟩,
     ⟨lit "b.txt", .ok (lit "BRAVO")⟩,
     ⟨lit "c.png", .ok (lit "GAMMA")⟩] .nil

/-- A directory that still holds the output file of a previous run of the
tool, alongside a normal source file. -/
def rerunTree : Dir :=
  .node (lit "proj")
    [⟨lit "proj_merged_20240101_120000.txt", .ok (lit "OLD RUN")⟩,
     ⟨lit "app.py", .ok (lit "print(1)")⟩] .nil

/-- A directory with one mergeable file whose `open` raises a permission
error, followed by a readable file. -/
def permTree : Dir :=
  .node (lit "proj")
    [⟨lit "secret.py", .openErr (lit "[Errno 13] Permission denied: /proj/secret.py")⟩,
     ⟨lit "app.py", .ok (lit "print(1)")⟩] .nil

/-- A tree whose subdirectory repeats the basename of the start
directory, so the start path reoccurs inside the walked paths. -/
def echoTree : Dir :=
  .node (lit "a") [] (.cons (.node (lit "a") [⟨lit "f.py", .ok []⟩] .nil) .nil)

/-- A well-named two-level tree. -/
def demoTree : Dir :=
  .node (lit "proj")
    [⟨lit "app.py", .ok (lit "print(1)")⟩]
    (.cons (.node (lit "docs") [⟨lit "readme.md", .ok (lit "hi")⟩] .nil) .nil)

/-- A merge invocation whose output file cannot be opened. -/
def failEnv : MergeEnv :=
  ⟨lit "/proj", abcTree, ⟨2024, 1, 1, 12, 0, 0⟩,
   some (lit "[Errno 2] No such file or directory: nope/out.txt")⟩

/-- A merge invocation over `permTree` whose output file opens fine. -/
def permEnv : MergeEnv :=
  ⟨lit "/proj", permTree, ⟨2024, 1, 1, 12, 0, 0⟩, none⟩

/-- A merge invocation over `demoTree` whose output file opens fine. -/
def demoEnv : MergeEnv :=
  ⟨lit "/home/u/proj", demoTree, ⟨2024, 1, 1, 12, 0, 0⟩, none⟩

/-- C1: of the four examples the claim fixes, three hold, but
`is_text_file` accepts `readme_merged_20240101_120000.txt`: the name does
not start with `_merged_` (it merely contains it), its basename is not in
the exclusion set, and `.txt` is in the allow-list — even though the
script generates its output files under that very naming scheme and its
comments say they are to be skipped. -/
theorem C1_is_mergeable_examples :
    is_text_file (lit "app.py") = true ∧
    is_text_file (lit "file_merger.py") = false ∧
    is_text_file (lit "photo.png") = false ∧
    is_text_file (lit "readme_merged_20240101_120000.txt") = true := by
  decide

/-- C2: filtering is not idempotent across runs.  In a directory `proj`
still holding the previous run's output `proj_merged_20240101_120000.txt`,
`is_text_file` accepts that file, the unfiltered structure listing shows
it, and the new merge's content section reproduces the old output in
full. -/
theorem C2_rerun_includes_prior_output :
    is_text_file (lit "/home/u/proj/proj_merged_20240101_120000.txt") = true ∧
    structureLines (lit "/home/u/proj") rerunTree =
      [lit "proj/", lit "  proj_merged_20240101_120000.txt", lit "  app.py"] ∧
    contentSections (lit "/home/u/proj") rerunTree =
      (List.replicate 80 '=' ++ lit "\nFile: proj_merged_20240101_120000.txt\n" ++
        List.replicate 80 '=' ++ lit "\n\nOLD RUN\n\n") ++
      (List.replicate 80 '=' ++ lit "\nFile: app.py\n" ++
        List.replicate 80 '=' ++ lit "\n\nprint(1)\n\n") := by
  decide

/-- C4: whenever opening the output file raises, `merge_files` returns
`False` together with the non-empty message `"Error during merge: " + e`,
and (being a total function of its environment) lets no exception
escape. -/
theorem C4_merge_reports_open_failure (env : MergeEnv) (e : Str)
    (h : env.openFailure = some e) :
    (merge_files env).1 = false ∧
    (merge_files env).2.1 = lit "Error during merge: " ++ e ∧
    (merge_files env).2.1 ≠ [] := by
  unfold merge_files
  rw [h]
  exact ⟨rfl, rfl, by simp [lit]⟩

theorem C4_merge_reports_open_failure_witness :
    failEnv.openFailure = some (lit "[Errno 2] No such file or directory: nope/out.txt") ∧
    ((merge_files failEnv).1 = false ∧
      (merge_files failEnv).2.1 =
        lit "Error during merge: " ++ lit "[Errno 2] No such file or directory: nope/out.txt" ∧
      (merge_files failEnv).2.1 ≠ []) :=
  ⟨rfl, C4_merge_reports_open_failure failEnv _ rfl⟩

/-- C5: any path whose basename is exactly `file_merger.py` is rejected by
`is_text_file`, so the tool's own source file is never merged. -/
theorem C5_own_filename_rejected (p : Str)
    (h : basename p = lit "file_merger.py") :
    is_text_file p = false := by
  have hc : (exclude_files.contains (lit "file_merger.py") ||
      output_pattern.isPrefixOf (lit "file_merger.py")) = true := by decide
  simp only [is_text_file, h, hc, if_true]

theorem C5_own_filename_rejected_witness :
    basename (lit "/home/u/proj/file_merger.py") = lit "file_merger.py" ∧
    is_text_file (lit "/home/u/proj/file_merger.py") = false :=
  ⟨by decide, C5_own_filename_rejected (lit "/home/u/proj/file_merger.py") (by decide)⟩

/-- C7: in a root holding exactly `a.py`, `b.txt`, `c.png`, the content
part of the merge is exactly one delimited section for `a.py` and one for
`b.txt`, each wrapped in a pair of 80-`=` lines around its root-relative
path, and `c.png` appears nowhere in it. -/
theorem C7_abc_directory_sections :
    contentSections (lit "/proj") abcTree =
      (List.replicate 80 '=' ++ lit "\nFile: a.py\n" ++
        List.replicate 80 '=' ++ lit "\n\nALPHA\n\n") ++
      (List.replicate 80 '=' ++ lit "\nFile: b.txt\n" ++
        List.replicate 80 '=' ++ lit "\n\nBRAVO\n\n") ∧
    occursIn (lit "c.png") (contentSections (lit "/proj") abcTree) = false := by
  decide

/-- C9: `is_text_file` is a total boolean function of the path string
alone — on every input it yields `true` or `false` (never an exception,
there being no effects to model), and equal inputs yield equal results. -/
theorem C9_total_deterministic (p : Str) :
    (is_text_file p = true ∨ is_text_file p = false) ∧
    ∀ q : Str, p = q → is_text_file p = is_text_file q := by
  constructor
  · cases h : is_text_file p
    · exact Or.inr rfl
    · exact Or.inl rfl
  · intro q h
    rw [h]

theorem C9_total_deterministic_witness :
    (is_text_file (lit "weird name..tar.gz") = true ∨
      is_text_file (lit "weird name..tar.gz") = false) ∧
    is_text_file (lit "weird name..tar.gz") = is_text_file (lit "weird name..tar.gz") :=
  ⟨(C9_total_deterministic (lit "weird name..tar.gz")).1,
   (C9_total_deterministic (lit "weird name..tar.gz")).2 _ rfl⟩

theorem takeWhile_of_all {p : Char → Bool} : ∀ (l : Str), (∀ x ∈ l, p x = true) →
    l.takeWhile p = l := by
  intro l h
  induction l with
  | nil => rfl
  | cons c rest ih =>
    rw [List.takeWhile_cons, h c (List.mem_cons_self c rest),
      ih (fun x hx => h x (List.mem_cons_of_mem c hx))]
    simp

theorem dropWhile_of_all_neg {p : Char → Bool} : ∀ (l : Str), (∀ x ∈ l, p x = false) →
    l.dropWhile p = l := by
  intro l h
  cases l with
  | nil => rfl
  | cons c rest =>
    rw [List.dropWhile_cons, h c (List.mem_cons_self c rest)]
    simp

theorem basename_of_no_sep {s : Str} (h : sep ∉ s) : basename s = s := by
  unfold basename
  rw [takeWhile_of_all]
  · exact List.reverse_reverse s
  · intro x hx
    simp only [decide_eq_true_eq]
    intro hxe
    exact h (hxe ▸ (List.mem_reverse.mp hx))

theorem char_ofNat_toNat_small (n : Nat) (h : n < 55296) : (Char.ofNat n).toNat = n := by
  unfold Char.ofNat
  rw [dif_pos (Or.inl h)]
  rfl

/-- `Char.toLower` moves only the basic latin uppercase letters, whose
images lie at code points 97 to 122; so a character whose lowercase image
lies below 97 was already that image. -/
theorem toLower_eq_of_small {c d : Char} (hd : d.toNat < 97) (h : c.toLower = d) :
    c = d := by
  have h2 : (if c.toNat ≥ 65 ∧ c.toNat ≤ 90 then Char.ofNat (c.toNat + 32) else c) = d := h
  split at h2
  case isTrue hc =>
    exfalso
    obtain ⟨hc1, hc2⟩ := hc
    have h3 := congrArg Char.toNat h2
    rw [char_ofNat_toNat_small (Char.toNat c + 32) (by omega)] at h3
    omega
  case isFalse _ => exact h2

theorem not_mem_lowerStr {t : Str} {d : Char} (hd : d.toNat < 97) (h : d ∉ t) :
    d ∉ lowerStr t := by
  intro hm
  rcases List.mem_map.mp hm with ⟨c, hc, he⟩
  exact h ((toLower_eq_of_small hd he) ▸ hc)

/-- C3 counterexample: with `secret.py` mergeable but unopenable
(permission error), the merge output contains the error line yet no
`File: secret.py` header at all — the delimiter block is never written
for that file because the exception is raised by `open`, before the
`with` body runs — while `app.py` is still processed. -/
theorem C3_open_error_header_missing :
    occursIn (lit "File: secret.py") (merge_files permEnv).2.2 = false ∧
    occursIn (lit "Error reading file /proj/secret.py: [Errno 13] Permission denied: /proj/secret.py")
      (merge_files permEnv).2.2 = true ∧
    occursIn (lit "File: app.py") (merge_files permEnv).2.2 = true := by
  decide

/-- C3 amended: a mergeable file that cannot be read never aborts the
merge — every earlier and later file still contributes its section — but
what stands in place of its content depends on where the exception is
raised: if `open` itself fails, only the line
`Error reading file <path>: <error>` plus a blank line are written (no
delimiter/header block); if `open` succeeds and `read` fails, the
80-`=` delimiter block and `File:` label are written, then a blank line,
then the error line. -/
theorem C3_unreadable_file_skipped (src n name m : Str) (fs1 fs2 : List FileE)
    (subs : Forest) (h : is_text_file (joinPath src name) = true) :
    contentSections src (.node n (fs1 ++ ⟨name, .openErr m⟩ :: fs2) subs) =
      contentSections src (.node n fs1 .nil) ++
      (lit "Error reading file " ++ joinPath src name ++ lit ": " ++ m ++ lit "\n\n") ++
      contentSections src (.node n fs2 subs) ∧
    contentSections src (.node n (fs1 ++ ⟨name, .readErr m⟩ :: fs2) subs) =
      contentSections src (.node n fs1 .nil) ++
      (List.replicate 80 '=' ++ lit "\n" ++ lit "File: " ++
        relpath (joinPath src name) src ++ lit "\n" ++
        List.replicate 80 '=' ++ lit "\n\n" ++
        lit "Error reading file " ++ joinPath src name ++ lit ": " ++ m ++ lit "\n\n") ++
      contentSections src (.node n fs2 subs) := by
  constructor <;>
    simp [contentSections, walkD, walkF, List.filterMap_append, h, fileSection,
      List.append_assoc]

theorem C3_unreadable_file_skipped_witness :
    is_text_file (joinPath (lit "/proj") (lit "secret.py")) = true ∧
    (contentSections (lit "/proj")
        (.node (lit "proj")
          ([] ++ ⟨lit "secret.py", .openErr (lit "denied")⟩ ::
            [⟨lit "app.py", .ok (lit "print(1)")⟩]) .nil) =
      contentSections (lit "/proj") (.node (lit "proj") [] .nil) ++
      (lit "Error reading file " ++ joinPath (lit "/proj") (lit "secret.py") ++
        lit ": " ++ lit "denied" ++ lit "\n\n") ++
      contentSections (lit "/proj")
        (.node (lit "proj") [⟨lit "app.py", .ok (lit "print(1)")⟩] .nil) ∧
    contentSections (lit "/proj")
        (.node (lit "proj")
          ([] ++ ⟨lit "secret.py", .readErr (lit "denied")⟩ ::
            [⟨lit "app.py", .ok (lit "print(1)")⟩]) .nil) =
      contentSections (lit "/proj") (.node (lit "proj") [] .nil) ++
      (List.replicate 80 '=' ++ lit "\n" ++ lit "File: " ++
        relpath (joinPath (lit "/proj") (lit "secret.py")) (lit "/proj") ++ lit "\n" ++
        List.replicate 80 '=' ++ lit "\n\n" ++
        lit "Error reading file " ++ joinPath (lit "/proj") (lit "secret.py") ++
        lit ": " ++ lit "denied" ++ lit "\n\n") ++
      contentSections (lit "/proj")
        (.node (lit "proj") [⟨lit "app.py", .ok (lit "print(1)")⟩] .nil)) :=
  ⟨by decide,
   C3_unreadable_file_skipped (lit "/proj") (lit "proj") (lit "secret.py")
     (lit "denied") [] [⟨lit "app.py", .ok (lit "print(1)")⟩] .nil (by decide)⟩

/-- C10: a filename that is a single leading dot followed by a dotless,
separator-free token has the empty extension under `os.path.splitext`
(leading dots never begin an extension), so `is_text_file` rejects it —
even though `.gitignore`, `.env`, `.babelrc` and `.dockerignore` are all
members of the allow-list. -/
theorem C10_dotfiles_rejected (t : Str) (h1 : '.' ∉ t) (h2 : sep ∉ t) :
    is_text_file ('.' :: t) = false ∧
    supported_extensions.contains (lit ".gitignore") = true ∧
    supported_extensions.contains (lit ".env") = true ∧
    supported_extensions.contains (lit ".babelrc") = true ∧
    supported_extensions.contains (lit ".dockerignore") = true := by
  refine ⟨?_, by decide, by decide, by decide, by decide⟩
  have hld : '.' ∉ lowerStr t := not_mem_lowerStr (by decide) h1
  have hls : sep ∉ lowerStr t := not_mem_lowerStr (by decide) h2
  have hsep : sep ∉ ('.' :: t) := by
    intro hm
    rcases List.mem_cons.mp hm with he | hm2
    · exact absurd he (by decide)
    · exact h2 hm2
  have hsep2 : sep ∉ ('.' :: lowerStr t) := by
    intro hm
    rcases List.mem_cons.mp hm with he | hm2
    · exact absurd he (by decide)
    · exact hls hm2
  have hb : basename ('.' :: t) = '.' :: t := basename_of_no_sep hsep
  have hpre : output_pattern.isPrefixOf ('.' :: t) = false := by
    rw [show output_pattern = '_' :: lit "merged_" from rfl, List.isPrefixOf_cons₂]
    simp [show ('_' == '.') = false from by decide]
  have hex : exclude_files.contains ('.' :: t) = false := by
    rw [show exclude_files = [ 'f' :: lit "ile_merger.py"] from rfl, List.contains_cons]
    rw [show (('.' :: t) == ('f' :: lit "ile_merger.py")) =
          ('.' == 'f' && List.beq t (lit "ile_merger.py")) from rfl]
    simp [show ('.' == 'f') = false from by decide]
  have hlow : lowerStr ('.' :: t) = '.' :: lowerStr t := by
    simp [lowerStr, show Char.toLower '.' = '.' from by decide]
  have hcont : (lowerStr t).contains '.' = false := by
    simp [List.contains, hld]
  have hdrop : List.dropWhile (fun c => decide (c = '.')) (lowerStr t) = lowerStr t :=
    dropWhile_of_all_neg _ (fun x hx => decide_eq_false (fun he => hld (he ▸ hx)))
  have hext : splitextExt (lowerStr ('.' :: t)) = [] := by
    rw [hlow]
    simp only [splitextExt, basename_of_no_sep hsep2, List.dropWhile_cons]
    simp [hdrop, hcont, hld]
  simp only [is_text_file, hb, hex, hpre, Bool.or_self, Bool.false_or, if_false, hext]
  decide

theorem decDigitsAux_all_digits : ∀ (fuel n : Nat),
    (decDigitsAux fuel n).all Char.isDigit = true := by
  intro fuel
  induction fuel with
  | zero => intro n; rfl
  | succ fuel ih =>
    intro n
    cases n with
    | zero => rfl
    | succ m =>
      rw [show decDigitsAux (fuel + 1) (m + 1) =
            decDigitsAux fuel ((m + 1) / 10) ++ [Nat.digitChar ((m + 1) % 10)] from rfl,
        List.all_append, ih]
      have h10 : (m + 1) % 10 < 10 := Nat.mod_lt _ (by omega)
      have hd : ∀ k, k < 10 → (Nat.digitChar k).isDigit = true := by decide
      simp [hd _ h10]

theorem decDigitsAux_len : ∀ (fuel n k : Nat), n < 10 ^ k →
    (decDigitsAux fuel n).length ≤ k := by
  intro fuel
  induction fuel with
  | zero => intro n k _; simp [decDigitsAux]
  | succ fuel ih =>
    intro n k h
    cases n with
    | zero => simp [decDigitsAux]
    | succ m =>
      cases k with
      | zero => exact absurd h (by simp)
      | succ k2 =>
        rw [show decDigitsAux (fuel + 1) (m + 1) =
              decDigitsAux fuel ((m + 1) / 10) ++ [Nat.digitChar ((m + 1) % 10)] from rfl,
          List.length_append]
        have hdiv : (m + 1) / 10 < 10 ^ k2 := by
          rw [pow_succ] at h
          omega
        have := ih ((m + 1) / 10) k2 hdiv
        simp only [List.length_cons, List.length_nil]
        omega

theorem decStr_len {n k : Nat} (hk : 1 ≤ k) (h : n < 10 ^ k) : (decStr n).length ≤ k := by
  unfold decStr
  split
  · simpa [lit] using hk
  · exact decDigitsAux_len n n k h

theorem decStr_all_digits (n : Nat) : (decStr n).all Char.isDigit = true := by
  unfold decStr
  split
  · decide
  · exact decDigitsAux_all_digits n n

theorem zfill_length {w : Nat} {s : Str} (h : s.length ≤ w) : (zfill w s).length = w := by
  simp [zfill]
  omega

theorem zfill_all_digits {w : Nat} {s : Str} (h : s.all Char.isDigit = true) :
    (zfill w s).all Char.isDigit = true := by
  rw [zfill, List.all_append, h]
  have : ∀ x ∈ List.replicate (w - s.length) '0', Char.isDigit x = true := by
    intro x hx
    rw [(List.eq_of_mem_replicate hx)]
    decide
  simp [List.all_eq_true.mpr this]

/-- C6: on a successful open, the output is written in the exact source
order — timestamp line, blank line, `Directory Structure:` header over a
19-`=` underline, the tree listing, a blank line, `File Contents:` header
over a 13-`=` underline and a blank line, then the file sections — the
timestamp renders as `YYYY-MM-DD HH:MM:SS` (4+2+2+2+2+2 zero-padded digit
fields), and every delimiter line around a `File:` label is exactly 80
`=` characters. -/
theorem C6_output_layout (env : MergeEnv)
    (h : env.openFailure = none)
    (hy : env.now.year ≤ 9999) (hmo : env.now.month ≤ 99) (hd : env.now.day ≤ 99)
    (hh : env.now.hour ≤ 99) (hmi : env.now.minute ≤ 99) (hs : env.now.second ≤ 99) :
    (merge_files env).2.2 =
      lit "Generated on: " ++ strftimeYmdHms env.now ++ lit "\n\n" ++
      lit "Directory Structure:\n" ++
      (List.replicate 19 '=' ++ lit "\n") ++
      get_directory_structure env.source_dir env.tree ++ lit "\n\n" ++
      lit "File Contents:\n" ++
      (List.replicate 13 '=' ++ lit "\n\n") ++
      contentSections env.source_dir env.tree ∧
    (∃ y mo d h2 mi s : Str,
      strftimeYmdHms env.now =
        y ++ '-' :: mo ++ '-' :: d ++ ' ' :: h2 ++ ':' :: mi ++ ':' :: s ∧
      y.length = 4 ∧ mo.length = 2 ∧ d.length = 2 ∧ h2.length = 2 ∧
      mi.length = 2 ∧ s.length = 2 ∧
      (y ++ mo ++ d ++ h2 ++ mi ++ s).all Char.isDigit = true) ∧
    (∀ src p c, fileSection src p (.ok c) =
      List.replicate 80 '=' ++ lit "\n" ++ lit "File: " ++ relpath p src ++ lit "\n" ++
      List.replicate 80 '=' ++ lit "\n\n" ++ c ++ lit "\n\n") := by
  refine ⟨?_, ?_, fun src p c => rfl⟩
  · have e19 : lit "===================\n" = List.replicate 19 '=' ++ lit "\n" := by decide
    have e13 : lit "=============\n\n" = List.replicate 13 '=' ++ lit "\n\n" := by decide
    simp only [merge_files, h]
    rw [e19, e13]
  · refine ⟨zfill 4 (decStr env.now.year), zfill 2 (decStr env.now.month),
      zfill 2 (decStr env.now.day), zfill 2 (decStr env.now.hour),
      zfill 2 (decStr env.now.minute), zfill 2 (decStr env.now.second),
      ?_, ?_, ?_, ?_, ?_, ?_, ?_, ?_⟩
    · simp [strftimeYmdHms, lit, List.append_assoc]
    · exact zfill_length (decStr_len (by omega) (by omega))
    · exact zfill_length (decStr_len (by omega) (by omega))
    · exact zfill_length (decStr_len (by omega) (by omega))
    · exact zfill_length (decStr_len (by omega) (by omega))
    · exact zfill_length (decStr_len (by omega) (by omega))
    · exact zfill_length (decStr_len (by omega) (by omega))
    · simp [List.all_append, zfill_all_digits (decStr_all_digits _)]

theorem C6_output_layout_witness :
    demoEnv.openFailure = none ∧ demoEnv.now.year ≤ 9999 ∧ demoEnv.now.month ≤ 99 ∧
    demoEnv.now.day ≤ 99 ∧ demoEnv.now.hour ≤ 99 ∧ demoEnv.now.minute ≤ 99 ∧
    demoEnv.now.second ≤ 99 ∧
    ((merge_files demoEnv).2.2 =
      lit "Generated on: " ++ strftimeYmdHms demoEnv.now ++ lit "\n\n" ++
      lit "Directory Structure:\n" ++
      (List.replicate 19 '=' ++ lit "\n") ++
      get_directory_structure demoEnv.source_dir demoEnv.tree ++ lit "\n\n" ++
      lit "File Contents:\n" ++
      (List.replicate 13 '=' ++ lit "\n\n") ++
      contentSections demoEnv.source_dir demoEnv.tree ∧
    (∃ y mo d h2 mi s : Str,
      strftimeYmdHms demoEnv.now =
        y ++ '-' :: mo ++ '-' :: d ++ ' ' :: h2 ++ ':' :: mi ++ ':' :: s ∧
      y.length = 4 ∧ mo.length = 2 ∧ d.length = 2 ∧ h2.length = 2 ∧
      mi.length = 2 ∧ s.length = 2 ∧
      (y ++ mo ++ d ++ h2 ++ mi ++ s).all Char.isDigit = true) ∧
    (∀ src p c, fileSection src p (.ok c) =
      List.replicate 80 '=' ++ lit "\n" ++ lit "File: " ++ relpath p src ++ lit "\n" ++
      List.replicate 80 '=' ++ lit "\n\n" ++ c ++ lit "\n\n")) :=
  ⟨rfl, by decide, by decide, by decide, by decide, by decide, by decide,
   C6_output_layout demoEnv rfl (by decide) (by decide) (by decide) (by decide)
     (by decide) (by decide)⟩

theorem C10_dotfiles_rejected_witness :
    ('.' ∉ lit "gitignore") ∧ (sep ∉ lit "gitignore") ∧
    (is_text_file ('.' :: lit "gitignore") = false ∧
      supported_extensions.contains (lit ".gitignore") = true ∧
      supported_extensions.contains (lit ".env") = true ∧
      supported_extensions.contains (lit ".babelrc") = true ∧
      supported_extensions.contains (lit ".dockerignore") = true) :=
  ⟨by decide, by decide, C10_dotfiles_rejected (lit "gitignore") (by decide) (by decide)⟩

theorem isPrefixOf_self_append : ∀ (l t : Str), l.isPrefixOf (l ++ t) = true := by
  intro l t
  induction l with
  | nil => simp
  | cons c rest ih => simp [List.isPrefixOf_cons₂, ih]

/-- `removeAllFuel` does not depend on the fuel once it covers the length
of the string being scanned. -/
theorem removeAllFuel_congr (old : Str) : ∀ (f1 f2 : Nat) (s : Str),
    s.length ≤ f1 → s.length ≤ f2 → removeAllFuel old f1 s = removeAllFuel old f2 s := by
  intro f1
  induction f1 with
  | zero =>
    intro f2 s h1 _
    have hs : s = [] := List.length_eq_zero.mp (by omega)
    subst hs
    cases f2 <;> rfl
  | succ f1 ih =>
    intro f2 s h1 h2
    cases s with
    | nil => cases f2 <;> rfl
    | cons c rest =>
      cases f2 with
      | zero => simp at h2
      | succ f2 =>
        simp only [removeAllFuel]
        simp only [List.length_cons] at h1 h2
        by_cases hc : old ≠ [] ∧ old.isPrefixOf (c :: rest) = true
        · rw [if_pos hc, if_pos hc]
          have hlen : (List.drop (old.length - 1) rest).length ≤ rest.length := by
            rw [List.length_drop]; omega
          exact ih f2 _ (by omega) (by omega)
        · rw [if_neg hc, if_neg hc]
          exact congrArg (c :: ·) (ih f2 rest (by omega) (by omega))

/-- `str.replace` deletes a leading occurrence of the pattern and scans
on. -/
theorem removeAll_append_self {old : Str} (h : old ≠ []) (s : Str) :
    removeAll old (old ++ s) = removeAll old s := by
  cases old with
  | nil => exact absurd rfl h
  | cons o os =>
    show removeAllFuel (o :: os) ((o :: os) ++ s).length ((o :: os) ++ s) = _
    rw [show ((o :: os) ++ s : Str) = o :: (os ++ s) from rfl]
    simp only [List.length_cons, removeAllFuel]
    rw [if_pos ⟨h, isPrefixOf_self_append (o :: os) s⟩]
    rw [show os.length + 1 - 1 = os.length from rfl]
    rw [List.drop_left]
    apply removeAllFuel_congr
    · simp [List.length_append]
    · exact Nat.le_refl _

/-- `str.replace` leaves a string without occurrences of the pattern
unchanged. -/
theorem removeAll_of_not_occurs : ∀ {s : Str} {old : Str},
    occursIn old s = false → removeAll old s = s := by
  intro s
  induction s with
  | nil => intro old _; rfl
  | cons c rest ih =>
    intro old h
    rw [occursIn, Bool.or_eq_false_iff] at h
    show removeAllFuel old (c :: rest).length (c :: rest) = c :: rest
    simp only [List.length_cons, removeAllFuel]
    rw [if_neg (fun hc => by rw [hc.2] at h; exact absurd h.1 (by simp))]
    exact congrArg (c :: ·) (ih h.2)

theorem takeWhile_append_of_all {p : Char → Bool} : ∀ (a b : Str),
    (∀ x ∈ a, p x = true) → (a ++ b).takeWhile p = a ++ b.takeWhile p := by
  intro a b h
  induction a with
  | nil => rfl
  | cons c rest ih =>
    rw [List.cons_append, List.takeWhile_cons, h c (List.mem_cons_self c rest)]
    simp only [if_true]
    rw [ih (fun x hx => h x (List.mem_cons_of_mem c hx))]
    rfl

theorem basename_append_sep {xs n : Str} (h : ∀ x ∈ n, x ≠ sep) :
    basename (xs ++ sep :: n) = n := by
  unfold basename
  rw [List.reverse_append, List.reverse_cons]
  rw [show (n.reverse ++ [sep] : Str) ++ xs.reverse = n.reverse ++ (sep :: xs.reverse) from by
    simp]
  rw [takeWhile_append_of_all n.reverse (sep :: xs.reverse)
    (fun x hx => decide_eq_true (h x (List.mem_reverse.mp hx)))]
  rw [List.takeWhile_cons]
  simp

theorem joinPath_eq {p : Str} (hne : p ≠ []) (hlast : p.getLast? ≠ some sep) (n : Str) :
    joinPath p n = p ++ sep :: n := by
  unfold joinPath
  cases hl : p.getLast? with
  | none => exact absurd (List.getLast?_eq_none_iff.mp hl) hne
  | some c =>
    have hcs : ¬ (c = sep) := fun he => hlast (he ▸ hl)
    simp [hcs]

theorem countChar_append (c : Char) (a b : Str) :
    countChar c (a ++ b) = countChar c a + countChar c b := by
  simp [countChar, List.filter_append]

theorem countChar_nil (c : Char) : countChar c [] = 0 := rfl

theorem countChar_sep_cons (r : Str) : countChar sep (sep :: r) = countChar sep r + 1 := by
  simp [countChar, List.filter_cons]

theorem countChar_eq_zero {n : Str} (h : ∀ x ∈ n, x ≠ sep) : countChar sep n = 0 := by
  simp [countChar, List.filter_eq_nil_iff]
  intro a ha hae
  exact h a ha hae

theorem goodD_name {d : Dir} (h : goodD d = true) :
    d.dname ≠ [] ∧ ∀ x ∈ d.dname, x ≠ sep := by
  cases d with
  | node n files subs =>
    simp only [goodD, Bool.and_eq_true, Bool.not_eq_true'] at h
    obtain ⟨⟨hne, hall⟩, _⟩ := h
    refine ⟨by simpa using hne, ?_⟩
    intro x hx
    have := List.all_eq_true.mp hall x hx
    simpa using this

mutual
/-- Refinement of the walk-and-replace level computation against the
spec's two-spaces-per-level listing, for a directory subtree sitting at
walk-relative path `r` under a well-formed start path that reoccurs
nowhere inside `r` or deeper. -/
theorem walkD_specLines (sp : Str) (hsp : sp ≠ []) (hlast : sp.getLast? ≠ some sep) :
    (d : Dir) → (r : Str) → goodD d = true → freshD sp r d = true →
    (r = [] ∨ (∃ c, r.getLast? = some c ∧ c ≠ sep)) →
    (walkD (sp ++ r) d).flatMap (entryLines sp) =
      specLinesD (countChar sep r) (basename (sp ++ r)) d
  | .node n files subs, r, hgood, hfresh, hr => by
    have hfr : occursIn sp r = false ∧ freshF sp r subs = true := by
      simpa [freshD, Bool.and_eq_true, Bool.not_eq_true'] using hfresh
    have hgd : goodF subs = true := by
      simp only [goodD, Bool.and_eq_true] at hgood
      exact hgood.2
    have hrm : removeAll sp (sp ++ r) = r := by
      rw [removeAll_append_self hsp, removeAll_of_not_occurs hfr.1]
    simp only [walkD, List.flatMap_cons, entryLines, hrm, specLinesD, List.cons_append]
    rw [walkF_specLines sp hsp hlast subs r hgd hfr.2 hr]

/-- The forest half of `walkD_specLines`. -/
theorem walkF_specLines (sp : Str) (hsp : sp ≠ []) (hlast : sp.getLast? ≠ some sep) :
    (ds : Forest) → (r : Str) → goodF ds = true → freshF sp r ds = true →
    (r = [] ∨ (∃ c, r.getLast? = some c ∧ c ≠ sep)) →
    (walkF (sp ++ r) ds).flatMap (entryLines sp) =
      specLinesF (countChar sep r + 1) ds
  | .nil, r, _, _, _ => by simp [walkF, specLinesF]
  | .cons d ds, r, hgood, hfresh, hr => by
    have hg : goodD d = true ∧ goodF ds = true := by
      simpa [goodF, Bool.and_eq_true] using hgood
    have hf : freshD sp (r ++ sep :: d.dname) d = true ∧ freshF sp r ds = true := by
      simpa [freshF, Bool.and_eq_true] using hfresh
    obtain ⟨hdn, hdall⟩ := goodD_name hg.1
    have hne : sp ++ r ≠ [] := by
      simp [List.append_eq_nil, hsp]
    have hlastr : (sp ++ r).getLast? ≠ some sep := by
      rcases hr with hre | ⟨c, hc, hcs⟩
      · subst hre
        simpa using hlast
      · rw [List.getLast?_append, hc]
        simpa using hcs
    have hj : joinPath (sp ++ r) d.dname = sp ++ (r ++ sep :: d.dname) := by
      rw [joinPath_eq hne hlastr, List.append_assoc]
    have hget : ∃ c, (r ++ sep :: d.dname).getLast? = some c ∧ c ≠ sep := by
      refine ⟨d.dname.getLast hdn, ?_, ?_⟩
      · rw [List.getLast?_append, show (sep :: d.dname : Str) = [sep] ++ d.dname from rfl,
          List.getLast?_append, List.getLast?_eq_getLast d.dname hdn]
        rfl
      · exact hdall _ (List.getLast_mem hdn)
    have hcount : countChar sep (r ++ sep :: d.dname) = countChar sep r + 1 := by
      rw [countChar_append, countChar_sep_cons, countChar_eq_zero hdall]
    have hbase : basename (sp ++ (r ++ sep :: d.dname)) = d.dname := by
      rw [← List.append_assoc]
      exact basename_append_sep hdall
    simp only [walkF, List.flatMap_append, specLinesF]
    rw [hj, walkD_specLines sp hsp hlast d (r ++ sep :: d.dname) hg.1 hf.1 (Or.inr hget),
      walkF_specLines sp hsp hlast ds r hg.2 hf.2 hr, hcount, hbase]
end

/-- C8 counterexample: walking `/a` whose subdirectory is also named `a`,
`root.replace(startpath, '')` deletes both occurrences of `/a` from
`/a/a`, so the subdirectory gets level 0 instead of 1 and its file one
level of indent instead of two — the listing differs from the
two-spaces-per-nesting-level listing the claim specifies. -/
theorem C8_replace_miscounts_level :
    structureLines (lit "/a") echoTree = [lit "a/", lit "a/", lit "  f.py"] ∧
    specLinesD 0 (basename (lit "/a")) echoTree =
      [lit "a/", lit "  a/", lit "    f.py"] ∧
    structureLines (lit "/a") echoTree ≠ specLinesD 0 (basename (lit "/a")) echoTree := by
  decide

/-- C8 amended: for a nonempty start path not ending in the separator and
a tree of nonempty separator-free directory names, *provided the start
path string reoccurs nowhere inside the walk-relative paths*, the listing
is exactly the spec's: per directory one line `indent + name + "/"` at
two spaces per nesting level (the root at level 0 under its basename),
followed by one line per file one level deeper — unfiltered, every file
included. -/
theorem C8_listing_refines_spec (sp : Str) (d : Dir) (hsp : sp ≠ [])
    (hlast : sp.getLast? ≠ some sep) (hgood : goodD d = true)
    (hfresh : freshD sp [] d = true) :
    structureLines sp d = specLinesD 0 (basename sp) d := by
  rw [structureLines]
  have h := walkD_specLines sp hsp hlast d [] hgood hfresh (Or.inl rfl)
  rw [List.append_nil, countChar_nil] at h
  exact h

theorem C8_listing_refines_spec_witness :
    (lit "/home/u/proj" ≠ []) ∧ ((lit "/home/u/proj").getLast? ≠ some sep) ∧
    goodD demoTree = true ∧ freshD (lit "/home/u/proj") [] demoTree = true ∧
    structureLines (lit "/home/u/proj") demoTree =
      specLinesD 0 (basename (lit "/home/u/proj")) demoTree :=
  ⟨by decide, by decide, by decide, by decide,
   C8_listing_refines_spec (lit "/home/u/proj") demoTree (by decide) (by decide)
     (by decide) (by decide)⟩
